import Mathlib

/-!
# Verification of the JOOLA customer-analytics data-processing pipeline

Shallow embedding of `src/data_processing.py` (pandas / numpy code) and
proofs about it.

Modelling conventions:
* a pandas `DataFrame` of order rows is a `List` of records;
* dates (`datetime64[D]` granularity) are `Int` day numbers, so that
  `(a - b).dt.days` is plain integer subtraction;
* numeric cells are `Rat` (exact rationals stand in for floats; none of the
  verified properties depend on rounding);
* a missing value (`NaN` / `NaT`) is `Option.none`;
* a raised Python exception is `Except.error`;
* Python `str` is modelled on the ASCII fragment (`str.lower`, `str.strip`
  are given their ASCII semantics, which is what column names use).
-/

/-! ## Python string primitives used by `standardize_column_names` -/

/-- The ASCII whitespace characters stripped by Python `str.strip()`:
space, tab, newline, carriage return, vertical tab, form feed. -/
def isPySpace (c : Char) : Bool :=
  c.toNat == 32 || c.toNat == 9 || c.toNat == 10 ||
  c.toNat == 13 || c.toNat == 11 || c.toNat == 12

/-- Python `str.strip()`: drop leading and trailing whitespace. -/
def pyStrip (s : List Char) : List Char :=
  ((s.dropWhile isPySpace).reverse.dropWhile isPySpace).reverse

/-- Python `str.lower()` on one character (ASCII range). -/
def pyLowerChar (c : Char) : Char :=
  if 65 ≤ c.toNat ∧ c.toNat ≤ 90 then Char.ofNat (c.toNat + 32) else c

/-- One character of `str.replace(old, new, regex=False)` where `old` and
`new` are single characters (the only form `standardize_column_names` uses). -/
def pyReplaceChar (old new c : Char) : Char := if c = old then new else c

/-- The whole column-name transformation of `standardize_column_names`:
`.str.strip().str.lower().str.replace('.','_').str.replace(' ','_').str.replace('-','_')`. -/
def standardizeName (s : List Char) : List Char :=
  ((((pyStrip s).map pyLowerChar).map
      (pyReplaceChar '.' '_')).map
      (pyReplaceChar ' ' '_')).map
      (pyReplaceChar '-' '_')

/-- The per-character composite applied after stripping. -/
def stdChar (c : Char) : Char :=
  pyReplaceChar '-' '_' (pyReplaceChar ' ' '_' (pyReplaceChar '.' '_' (pyLowerChar c)))

/-- A dataframe: a list of column names plus a rectangular list of rows.
Only the column names matter to `standardize_column_names`; the cell type
is abstract. -/
structure DF (α : Type) where
  cols : List (List Char)
  rows : List (List α)
deriving DecidableEq

/-- `standardize_column_names(df)`: copies the frame and rewrites every
column name with `standardizeName` (`src/data_processing.py:15-37`). -/
def standardize_column_names {α : Type} (df : DF α) : DF α :=
  { df with cols := df.cols.map standardizeName }

/-! ### Character-level lemmas -/

theorem pyLowerChar_toNat_of_upper {c : Char} (h1 : 65 ≤ c.toNat) (h2 : c.toNat ≤ 90) :
    (pyLowerChar c).toNat = c.toNat + 32 := by
  have hv : (c.toNat + 32).isValidChar := Or.inl (by omega)
  rw [pyLowerChar, if_pos ⟨h1, h2⟩, Char.ofNat, dif_pos hv]
  simp [Char.ofNatAux, Char.toNat, UInt32.toNat, BitVec.toNat_ofNatLt]

theorem pyLowerChar_eq_self {c : Char} (h : ¬(65 ≤ c.toNat ∧ c.toNat ≤ 90)) :
    pyLowerChar c = c := by
  rw [pyLowerChar, if_neg h]

theorem stdChar_of_upper {c : Char} (h1 : 65 ≤ c.toNat) (h2 : c.toNat ≤ 90) :
    stdChar c = pyLowerChar c := by
  have ht := pyLowerChar_toNat_of_upper h1 h2
  have h46 : pyLowerChar c ≠ '.' := by
    intro he; rw [he, show ('.' : Char).toNat = 46 from by decide] at ht; omega
  have h32 : pyLowerChar c ≠ ' ' := by
    intro he; rw [he, show (' ' : Char).toNat = 32 from by decide] at ht; omega
  have h45 : pyLowerChar c ≠ '-' := by
    intro he; rw [he, show ('-' : Char).toNat = 45 from by decide] at ht; omega
  simp only [stdChar, pyReplaceChar]
  rw [if_neg h46, if_neg h32, if_neg h45]

theorem stdChar_eq_self {c : Char} (hu : ¬(65 ≤ c.toNat ∧ c.toNat ≤ 90))
    (h1 : c ≠ '.') (h2 : c ≠ ' ') (h3 : c ≠ '-') : stdChar c = c := by
  simp only [stdChar, pyReplaceChar, pyLowerChar_eq_self hu]
  rw [if_neg h1, if_neg h2, if_neg h3]

theorem stdChar_idem (c : Char) : stdChar (stdChar c) = stdChar c := by
  by_cases hu : 65 ≤ c.toNat ∧ c.toNat ≤ 90
  · rw [stdChar_of_upper hu.1 hu.2]
    have ht := pyLowerChar_toNat_of_upper hu.1 hu.2
    refine stdChar_eq_self (by omega) ?_ ?_ ?_
    · intro he; rw [he, show ('.' : Char).toNat = 46 from by decide] at ht; omega
    · intro he; rw [he, show (' ' : Char).toNat = 32 from by decide] at ht; omega
    · intro he; rw [he, show ('-' : Char).toNat = 45 from by decide] at ht; omega
  · by_cases hd : c = '.' ∨ c = ' ' ∨ c = '-'
    · have h1 : stdChar c = '_' := by
        rcases hd with h | h | h <;> rw [h] <;> decide
      rw [h1]; decide
    · push_neg at hd
      simp only [stdChar_eq_self hu hd.1 hd.2.1 hd.2.2]

theorem standardizeName_eq_map (s : List Char) :
    standardizeName s = (pyStrip s).map stdChar := by
  simp [standardizeName, stdChar, List.map_map, Function.comp_def]

theorem dropWhile_eq_self_of_head {p : Char → Bool} {l : List Char}
    (h : ∀ a, l.head? = some a → p a = false) : l.dropWhile p = l := by
  cases l with
  | nil => rfl
  | cons x xs => simp [List.dropWhile_cons, h x rfl]

theorem getLast?_dropWhile (p : Char → Bool) (l : List Char) :
    l.dropWhile p = [] ∨ (l.dropWhile p).getLast? = l.getLast? := by
  induction l with
  | nil => exact Or.inl rfl
  | cons x xs ih =>
    rw [List.dropWhile_cons]
    by_cases hp : p x = true
    · rw [if_pos hp]
      rcases ih with h | h
      · exact Or.inl h
      · by_cases hn : xs.dropWhile p = []
        · exact Or.inl hn
        · have hxs : xs ≠ [] := by
            intro he; rw [he] at hn; exact hn rfl
          right
          cases xs with
          | nil => exact absurd rfl hxs
          | cons y ys => rw [h, List.getLast?_cons_cons]
    · rw [if_neg hp]
      exact Or.inr rfl

theorem head?_pyStrip {l : List Char} {a : Char} (h : (pyStrip l).head? = some a) :
    isPySpace a = false := by
  rw [pyStrip, List.head?_reverse] at h
  rcases getLast?_dropWhile isPySpace (l.dropWhile isPySpace).reverse with he | he
  · rw [he] at h; exact absurd h (by simp)
  · rw [he, List.getLast?_reverse] at h
    have hd := List.head?_dropWhile_not isPySpace l
    rw [h] at hd
    exact hd

theorem getLast?_pyStrip {l : List Char} {a : Char} (h : (pyStrip l).getLast? = some a) :
    isPySpace a = false := by
  rw [pyStrip, List.getLast?_reverse] at h
  have hd := List.head?_dropWhile_not isPySpace (l.dropWhile isPySpace).reverse
  rw [h] at hd
  exact hd

theorem pyStrip_eq_self {l : List Char}
    (h1 : ∀ a, l.head? = some a → isPySpace a = false)
    (h2 : ∀ a, l.getLast? = some a → isPySpace a = false) : pyStrip l = l := by
  rw [pyStrip, dropWhile_eq_self_of_head h1, dropWhile_eq_self_of_head
    (by intro a ha; rw [List.head?_reverse] at ha; exact h2 a ha), List.reverse_reverse]

theorem stdChar_not_space {c : Char} (h : isPySpace c = false) :
    isPySpace (stdChar c) = false := by
  by_cases hu : 65 ≤ c.toNat ∧ c.toNat ≤ 90
  · rw [stdChar_of_upper hu.1 hu.2]
    have ht := pyLowerChar_toNat_of_upper hu.1 hu.2
    simp only [isPySpace, Bool.or_eq_false_iff, beq_eq_false_iff_ne, ne_eq]
    omega
  · by_cases hd : c = '.' ∨ c = ' ' ∨ c = '-'
    · have h1 : stdChar c = '_' := by
        rcases hd with h | h | h <;> rw [h] <;> decide
      rw [h1]; decide
    · push_neg at hd
      rw [stdChar_eq_self hu hd.1 hd.2.1 hd.2.2]
      exact h

theorem standardizeName_idem (s : List Char) :
    standardizeName (standardizeName s) = standardizeName s := by
  rw [standardizeName_eq_map, standardizeName_eq_map]
  have hs : pyStrip ((pyStrip s).map stdChar) = (pyStrip s).map stdChar := by
    apply pyStrip_eq_self
    · intro a ha
      rw [List.head?_map] at ha
      cases hh : (pyStrip s).head? with
      | none => rw [hh] at ha; exact absurd ha (by simp)
      | some b =>
        rw [hh] at ha
        have hab : a = stdChar b := by simpa using ha.symm
        rw [hab]
        exact stdChar_not_space (head?_pyStrip hh)
    · intro a ha
      rw [List.getLast?_map] at ha
      cases hh : (pyStrip s).getLast? with
      | none => rw [hh] at ha; exact absurd ha (by simp)
      | some b =>
        rw [hh] at ha
        have hab : a = stdChar b := by simpa using ha.symm
        rw [hab]
        exact stdChar_not_space (getLast?_pyStrip hh)
  rw [hs, List.map_map]
  simp [Function.comp_def, stdChar_idem]

/-- **C5** (`algebraic_relational`): `standardize_column_names` is idempotent —
for every input table, applying it twice yields exactly the same table as
applying it once. -/
theorem standardize_column_names_idempotent {α : Type} (df : DF α) :
    standardize_column_names (standardize_column_names df) = standardize_column_names df := by
  simp [standardize_column_names, List.map_map, Function.comp_def, standardizeName_idem]

/-! ## `clean_numeric_column` -/

/-- Value of a digit string read left to right (helper for `to_numeric`). -/
def digitsVal (cs : List Char) : Nat :=
  cs.foldl (fun n c => 10 * n + (c.toNat - 48)) 0

/-- `pd.to_numeric(s, errors='coerce')` on one cell, for the decimal
fragment `[+|-] digits [. digits]` (with at least one digit).  Cells outside
this grammar coerce to `none` (`NaN`), never an error.  (Exponent and
infinity forms, which the cleanup below can never produce from currency
text, are out of the modelled fragment.) -/
def to_numeric (cs : List Char) : Option Rat :=
  let neg : Bool := cs.head? = some '-'
  let body : List Char :=
    if cs.head? = some '-' ∨ cs.head? = some '+' then cs.tail else cs
  let ip := body.takeWhile (fun c => !(c = '.'))
  match body.dropWhile (fun c => !(c = '.')) with
  | [] =>
    if ip ≠ [] ∧ ip.all Char.isDigit then
      let v := mkRat (Int.ofNat (digitsVal ip)) 1
      some (if neg then -v else v)
    else none
  | _ :: fp =>
    if (ip ≠ [] ∨ fp ≠ []) ∧ ip.all Char.isDigit ∧ fp.all Char.isDigit then
      let v := mkRat (Int.ofNat (digitsVal ip * 10 ^ fp.length + digitsVal fp)) (10 ^ fp.length)
      some (if neg then -v else v)
    else none

/-- The chained `.str.replace` cleanup of `clean_numeric_column`:
drop `$`, `,`, `%`, turn `(` into `-`, drop `)`, then strip whitespace
(`src/data_processing.py:56-64`). -/
def cleanCell (s : List Char) : List Char :=
  pyStrip ((((((s.filter (fun c => !(c = '$'))).filter
    (fun c => !(c = ','))).filter
    (fun c => !(c = '%'))).map
    (pyReplaceChar '(' '-')).filter
    (fun c => !(c = ')'))))

/-- A pandas `Series`: either text cells (`object` dtype) or numeric cells
where `none` is `NaN`. -/
inductive Series where
  | obj (cells : List (List Char))
  | num (cells : List (Option Rat))
deriving DecidableEq

/-- `clean_numeric_column(series)` (`src/data_processing.py:40-66`): an
`object` series is cleaned cell-wise and coerced to numeric; any other
series is returned unchanged. -/
def clean_numeric_column : Series → Series
  | .obj cells => .num (cells.map (fun s => to_numeric (cleanCell s)))
  | .num cells => .num cells

/-- **C4** (`functional_correctness`): on a text series, `'$1,234.56'`
cleans to `1234.56`, `'(123.45)'` to `-123.45` and `'12%'` to `12`; every
text series cleans to a numeric series of the same length where each cell
is the total cleanup-and-coerce map (so an unparsable cell becomes a
missing value, never an error); a non-text series is returned unchanged. -/
theorem clean_numeric_column_spec :
    clean_numeric_column (.obj ["$1,234.56".toList, "(123.45)".toList, "12%".toList]) =
      .num [some (123456 / 100 : Rat), some (-(12345 / 100) : Rat), some 12] ∧
    (∀ cells : List (List Char),
      clean_numeric_column (.obj cells) =
        .num (cells.map (fun s => to_numeric (cleanCell s))) ∧
      (cells.map (fun s => to_numeric (cleanCell s))).length = cells.length) ∧
    (∀ ncells : List (Option Rat), clean_numeric_column (.num ncells) = .num ncells) := by
  refine ⟨?_, fun cells => ⟨rfl, List.length_map _ _⟩, fun ncells => rfl⟩
  have h : clean_numeric_column (.obj ["$1,234.56".toList, "(123.45)".toList, "12%".toList]) =
      .num [some (mkRat 123456 100), some (-(mkRat 12345 100)), some (mkRat 12 1)] := by
    decide
  rw [h]
  norm_num [Rat.mkRat_eq_divInt, Rat.divInt_eq_div]

/-! ## `create_churn_label` -/

/-- One row of the customer-level frame passed to `create_churn_label`:
the `last_purchase` date (day number) plus whatever other columns the frame
carries, abstracted as `payload`. -/
structure CustRow (α : Type) where
  last_purchase : Int
  payload : α
deriving DecidableEq

/-- A row of the returned frame: the input columns plus the two added ones. -/
structure LabeledRow (α : Type) where
  last_purchase : Int
  payload : α
  recency_days : Int
  churn_label : Int
deriving DecidableEq

/-- The observation date actually used: the argument if given, else
`df[last_purchase_col].max()` (`src/data_processing.py:181-182`).  The
`unbot' 0` fallback is reached only on an empty frame, whose output is
empty anyway. -/
def observationOf {α : Type} (df : List (CustRow α)) (observation_date : Option Int) : Int :=
  match observation_date with
  | some o => o
  | none => ((df.map (·.last_purchase)).maximum).unbot' 0

/-- `create_churn_label(df, observation_date, churn_days)`
(`src/data_processing.py:156-187`): adds `recency_days` as the day
difference from the observation date and `churn_label` as
`(recency_days >= churn_days).astype(int)`. -/
def create_churn_label {α : Type} (df : List (CustRow α))
    (observation_date : Option Int) (churn_days : Int) : List (LabeledRow α) :=
  df.map (fun r =>
    { last_purchase := r.last_purchase, payload := r.payload,
      recency_days := observationOf df observation_date - r.last_purchase,
      churn_label :=
        if churn_days ≤ observationOf df observation_date - r.last_purchase then 1 else 0 })

/-- **C3** (`functional_correctness`): every output row of
`create_churn_label` has `churn_label = 1` exactly when
`recency_days ≥ churn_days`; in particular recency exactly `churn_days`
is labeled `1` and recency `churn_days - 1` is labeled `0`. -/
theorem create_churn_label_boundary {α : Type} (df : List (CustRow α))
    (observation_date : Option Int) (churn_days : Int) (r : LabeledRow α)
    (hr : r ∈ create_churn_label df observation_date churn_days) :
    (r.churn_label = 1 ↔ churn_days ≤ r.recency_days) ∧
    (r.recency_days = churn_days → r.churn_label = 1) ∧
    (r.recency_days = churn_days - 1 → r.churn_label = 0) := by
  simp only [create_churn_label, List.mem_map] at hr
  obtain ⟨s, _, hs⟩ := hr
  subst hs
  dsimp only
  by_cases h : churn_days ≤ observationOf df observation_date - s.last_purchase
  · rw [if_pos h]
    exact ⟨⟨fun _ => h, fun _ => rfl⟩, fun _ => rfl, fun he => by omega⟩
  · rw [if_neg h]
    exact ⟨⟨fun h0 => by omega, fun hc => absurd hc h⟩, fun he => by omega, fun _ => rfl⟩

/-- The output row used to witness C3. -/
def churnWitnessRow : LabeledRow Unit :=
  { last_purchase := 0, payload := (), recency_days := 180, churn_label := 1 }

/-- Witness for C3: one customer, observation date 180 days after its last
purchase, threshold 180, sits at the boundary and is labeled churned. -/
theorem create_churn_label_boundary_witness :
    (churnWitnessRow.churn_label = 1 ↔ (180 : Int) ≤ churnWitnessRow.recency_days) ∧
    (churnWitnessRow.recency_days = 180 → churnWitnessRow.churn_label = 1) ∧
    (churnWitnessRow.recency_days = 180 - 1 → churnWitnessRow.churn_label = 0) :=
  create_churn_label_boundary [⟨0, ()⟩] (some 180) 180 churnWitnessRow (by decide)

/-- **C8** (`invariants`): with `observation_date` omitted and a nonempty
frame, the observation date used is the maximum `last_purchase` across the
whole table, so every `recency_days` equals that maximum minus the row's
`last_purchase` and is non-negative. -/
theorem create_churn_label_default_observation {α : Type} (df : List (CustRow α))
    (churn_days : Int) (hne : df ≠ []) :
    ∃ m : Int, (df.map (·.last_purchase)).maximum = (m : WithBot Int) ∧
      ∀ r ∈ create_churn_label df none churn_days,
        r.recency_days = m - r.last_purchase ∧ 0 ≤ r.recency_days := by
  have hmapne : df.map (·.last_purchase) ≠ [] := by
    intro h
    exact hne (List.map_eq_nil_iff.mp h)
  have hbot := List.maximum_ne_bot_of_ne_nil hmapne
  obtain ⟨m, hm⟩ := WithBot.ne_bot_iff_exists.mp hbot
  refine ⟨m, hm.symm, ?_⟩
  intro r hr
  simp only [create_churn_label, List.mem_map] at hr
  obtain ⟨s, hsmem, hs⟩ := hr
  have hle : s.last_purchase ≤ m :=
    List.le_maximum_of_mem (List.mem_map_of_mem _ hsmem) hm.symm
  subst hs
  dsimp only
  rw [observationOf, ← hm, WithBot.unbot'_coe]
  exact ⟨rfl, by omega⟩

/-- Witness for C8: two customers with last purchases on days 10 and 40. -/
theorem create_churn_label_default_observation_witness :
    ∃ m : Int,
      (([⟨10, ()⟩, ⟨40, ()⟩] : List (CustRow Unit)).map (·.last_purchase)).maximum =
        (m : WithBot Int) ∧
      ∀ r ∈ create_churn_label ([⟨10, ()⟩, ⟨40, ()⟩] : List (CustRow Unit)) none 180,
        r.recency_days = m - r.last_purchase ∧ 0 ≤ r.recency_days :=
  create_churn_label_default_observation [⟨10, ()⟩, ⟨40, ()⟩] 180 (by decide)

/-! ## `create_customer_features` -/

/-- One order-level row (`src/data_processing.py:92-99` default schema).
The customer identity type `κ` is any linearly ordered type (pandas sorts
group keys); the repository uses email strings. -/
structure OrderRow (κ : Type) where
  email : κ
  id : Int
  order_date : Int
  total : Rat
  lineitem_quantity : Rat
  discount_amount : Rat
  accepts_marketing : Rat
deriving DecidableEq

/-- One output row of `create_customer_features`. -/
structure CustFeat (κ : Type) where
  email : κ
  n_orders : Nat
  first_purchase : Int
  last_purchase : Int
  avg_spend : Rat
  total_spend : Rat
  avg_items : Rat
  marketing_optin : Rat
  n_discounts : Nat
  avg_discount : Rat
  frequency : Nat
  monetary : Rat
  avg_gap_days : Rat
deriving DecidableEq

/-- Pandas column mean: sum divided by length (only ever applied to
nonempty groups here). -/
def meanQ (xs : List Rat) : Rat := xs.sum / (xs.length : Rat)

/-- `groupby` keys: the distinct customer identities, in sorted order
(pandas `groupby` sorts keys by default). -/
def grpKeys {κ : Type} [LinearOrder κ] [DecidableEq κ] (df : List (OrderRow κ)) : List κ :=
  List.insertionSort (· ≤ ·) (df.map (·.email)).dedup

/-- The orders of one customer, in input order. -/
def groupOf {κ : Type} [DecidableEq κ] (df : List (OrderRow κ)) (k : κ) : List (OrderRow κ) :=
  df.filter (fun r => r.email = k)

/-- Consecutive differences of a list (`Series.diff()` with the leading
`NaT` dropped, as `mean` skips it). -/
def diffsI : List Int → List Int
  | [] => []
  | [_] => []
  | a :: b :: t => (b - a) :: diffsI (b :: t)

/-- `x.sort_values().diff().dt.days.mean()` for one customer's order dates
(`src/data_processing.py:145-147`): `none` models the `NaN` mean of an
empty difference list.  `mkRat s n` is exactly `s / n` (`Rat.mkRat_eq_div`),
the mean of the day gaps. -/
def avgGapOpt (dates : List Int) : Option Rat :=
  let ds := diffsI (List.insertionSort (· ≤ ·) dates)
  if ds.isEmpty then none else some (mkRat ds.sum ds.length)

/-- The `order_dates` frame: per-customer average order gap, keyed by
customer (`src/data_processing.py:145-148`). -/
def order_dates {κ : Type} [LinearOrder κ] [DecidableEq κ] (df : List (OrderRow κ)) :
    List (κ × Option Rat) :=
  (grpKeys df).map (fun k => (k, avgGapOpt ((groupOf df k).map (·.order_date))))

/-- The `customer_agg` row for key `k` (`src/data_processing.py:128-142`):
named aggregations over the customer's group, plus the `frequency` and
`monetary` aliases.  `avg_gap_days` is filled by the merge below and starts
at 0 here. -/
def aggRow {κ : Type} [LinearOrder κ] [DecidableEq κ] (df : List (OrderRow κ)) (k : κ) :
    CustFeat κ :=
  let g := groupOf df k
  { email := k
    n_orders := (g.map (·.id)).dedup.length
    first_purchase := ((g.map (·.order_date)).minimum).untop' 0
    last_purchase := ((g.map (·.order_date)).maximum).unbot' 0
    avg_spend := meanQ (g.map (·.total))
    total_spend := (g.map (·.total)).sum
    avg_items := meanQ (g.map (·.lineitem_quantity))
    marketing_optin := ((g.map (·.accepts_marketing)).maximum).unbot' 0
    n_discounts := (g.filter (fun r => 0 < r.discount_amount)).length
    avg_discount := meanQ (g.map (·.discount_amount))
    frequency := (g.map (·.id)).dedup.length
    monetary := (g.map (·.total)).sum
    avg_gap_days := 0 }

/-- `create_customer_features(df)` (`src/data_processing.py:92-153`):
aggregate per customer, left-merge the `avg_gap_days` column on the
customer key, and `fillna(0)`.  Both frames are keyed by the same
duplicate-free `grpKeys df`, so the pandas many-to-one left join is the
first (unique) match of the key in `order_dates df`; a missing match or a
`NaN` gap both fall to the `fillna` default `0`. -/
def create_customer_features {κ : Type} [LinearOrder κ] [DecidableEq κ]
    (df : List (OrderRow κ)) : List (CustFeat κ) :=
  (grpKeys df).map (fun k =>
    { aggRow df k with
      avg_gap_days :=
        ((((order_dates df).find? (fun p => p.1 = k)).bind (fun p => p.2)).getD 0) })

theorem grpKeys_nodup {κ : Type} [LinearOrder κ] [DecidableEq κ] (df : List (OrderRow κ)) :
    (grpKeys df).Nodup :=
  ((List.perm_insertionSort _ _).nodup_iff).mpr (List.nodup_dedup _)

theorem mem_grpKeys {κ : Type} [LinearOrder κ] [DecidableEq κ] (df : List (OrderRow κ))
    (e : κ) : e ∈ grpKeys df ↔ e ∈ df.map (·.email) := by
  rw [grpKeys, List.mem_insertionSort, List.mem_dedup]

theorem find?_keyed_map {κ β : Type} [DecidableEq κ] (g : κ → β) :
    ∀ (l : List κ), l.Nodup → ∀ k ∈ l,
      (l.map (fun x => (x, g x))).find? (fun p => p.1 = k) = some (k, g k) := by
  intro l
  induction l with
  | nil => intro _ k hk; exact absurd hk (List.not_mem_nil k)
  | cons a t ih =>
    intro hnd k hk
    rw [List.map_cons]
    by_cases hak : a = k
    · subst hak
      exact List.find?_cons_of_pos _ (by simp)
    · rw [List.find?_cons_of_neg _ (by simp [hak])]
      exact ih (List.nodup_cons.mp hnd).2 k
        ((List.mem_cons.mp hk).resolve_left (fun h => hak h.symm))

theorem diffsI_length : ∀ l : List Int, (diffsI l).length = l.length - 1
  | [] => rfl
  | [_] => rfl
  | a :: b :: t => by
    rw [diffsI, List.length_cons, diffsI_length (b :: t)]
    simp only [List.length_cons]
    omega

/-- Every output row of `create_customer_features` is the aggregate of its
own key with the merged, `fillna`-defaulted gap column. -/
theorem create_customer_features_row {κ : Type} [LinearOrder κ] [DecidableEq κ]
    {df : List (OrderRow κ)} {r : CustFeat κ} (hr : r ∈ create_customer_features df) :
    r.email ∈ grpKeys df ∧
    r.avg_gap_days =
      ((avgGapOpt ((groupOf df r.email).map (·.order_date))).getD 0) := by
  rw [create_customer_features, List.mem_map] at hr
  obtain ⟨k, hk, he⟩ := hr
  have hemail : r.email = k := by rw [← he]; rfl
  have hgap : r.avg_gap_days =
      ((((order_dates df).find? (fun p => p.1 = k)).bind (fun p => p.2)).getD 0) := by
    rw [← he]
  have hfind := find?_keyed_map
    (fun k => avgGapOpt ((groupOf df k).map (·.order_date))) (grpKeys df)
    (grpKeys_nodup df) k hk
  refine ⟨hemail ▸ hk, ?_⟩
  rw [hgap, order_dates, hfind, hemail]
  rfl

/-- **C6** (`invariants`): `create_customer_features` emits exactly one row
per distinct customer identity of the input — the output keys are exactly
the sorted distinct input emails, without duplicates, and no customer is
dropped by the left-join of the gap column. -/
theorem create_customer_features_one_row_per_customer {κ : Type} [LinearOrder κ]
    [DecidableEq κ] (df : List (OrderRow κ)) :
    (create_customer_features df).map (·.email) = grpKeys df ∧
    ((create_customer_features df).map (·.email)).Nodup ∧
    (∀ e, e ∈ (create_customer_features df).map (·.email) ↔ e ∈ df.map (·.email)) := by
  have h1 : (create_customer_features df).map (·.email) = grpKeys df := by
    rw [create_customer_features, List.map_map]
    exact (List.map_congr_left fun a _ => rfl).trans (List.map_id _)
  refine ⟨h1, ?_, ?_⟩
  · rw [h1]; exact grpKeys_nodup df
  · intro e; rw [h1]; exact mem_grpKeys df e

/-- **C2** (`functional_correctness`): in the output of
`create_customer_features`, a customer with exactly one order row has
`avg_gap_days = 0`, and a customer whose `k ≥ 2` order dates sort strictly
increasingly to `d1 < … < dk` has `avg_gap_days` equal to the mean of the
`k - 1` consecutive differences. -/
theorem create_customer_features_avg_gap {κ : Type} [LinearOrder κ] [DecidableEq κ]
    (df : List (OrderRow κ)) (r : CustFeat κ) (hr : r ∈ create_customer_features df) :
    ((groupOf df r.email).length = 1 → r.avg_gap_days = 0) ∧
    (∀ ds : List Int, ds.Sorted (· < ·) →
      ((groupOf df r.email).map (·.order_date)).Perm ds →
      2 ≤ ds.length →
      r.avg_gap_days = ((diffsI ds).sum : Rat) / ((ds.length - 1 : Nat) : Rat)) := by
  obtain ⟨-, hgap⟩ := create_customer_features_row hr
  constructor
  · intro hlen
    rw [hgap]
    have hdl : ((groupOf df r.email).map (·.order_date)).length = 1 := by
      rw [List.length_map]; exact hlen
    have hsl : (List.insertionSort (· ≤ ·)
        ((groupOf df r.email).map (·.order_date))).length = 1 := by
      rw [List.length_insertionSort]; exact hdl
    obtain ⟨a, ha⟩ := List.length_eq_one.mp hsl
    rw [avgGapOpt, ha]
    rfl
  · intro ds hsort hperm hlen
    have hsorteq : List.insertionSort (· ≤ ·)
        ((groupOf df r.email).map (·.order_date)) = ds := by
      apply List.eq_of_perm_of_sorted
        ((List.perm_insertionSort _ _).trans hperm)
        (List.sorted_insertionSort _ _)
        hsort.le_of_lt
    rw [hgap, avgGapOpt, hsorteq]
    have hne : (diffsI ds).isEmpty = false := by
      have := diffsI_length ds
      cases hd : diffsI ds with
      | nil => rw [hd] at this; simp at this; omega
      | cons x xs => rfl
    rw [if_neg (by rw [hne]; exact Bool.false_ne_true)]
    rw [Option.getD_some, Rat.mkRat_eq_div, diffsI_length]

/-- Concrete two-order frame used to witness C2. -/
def c2df : List (OrderRow Nat) :=
  [{ email := 7, id := 1, order_date := 0, total := 10, lineitem_quantity := 1,
     discount_amount := 0, accepts_marketing := 0 },
   { email := 7, id := 2, order_date := 60, total := 20, lineitem_quantity := 2,
     discount_amount := 5, accepts_marketing := 1 }]

/-- The feature row `create_customer_features` produces for `c2df`. -/
def c2row : CustFeat Nat :=
  { email := 7, n_orders := 2, first_purchase := 0, last_purchase := 60,
    avg_spend := 15, total_spend := 30, avg_items := mkRat 3 2, marketing_optin := 1,
    n_discounts := 1, avg_discount := mkRat 5 2, frequency := 2, monetary := 30,
    avg_gap_days := 60 }

/-- Witness for C2: the customer with orders on days 0 and 60 gets
`avg_gap_days = (60 - 0) / 1`. -/
theorem create_customer_features_avg_gap_witness :
    c2row.avg_gap_days =
      ((diffsI [0, 60]).sum : Rat) / ((([0, 60] : List Int).length - 1 : Nat) : Rat) :=
  (create_customer_features_avg_gap c2df c2row
      (by with_unfolding_all decide)).2
    [0, 60] (by decide) (by with_unfolding_all decide) (by decide)

/-! ## `get_top_products` -/

/-- One order-line row as `get_top_products` sees it: a product key and the
metric value. -/
structure ProdRow (κ : Type) where
  product : κ
  metric : Rat
deriving DecidableEq

/-- The returned frame: its two column names and its rows. -/
structure TopProducts (κ : Type) where
  cols : List Char × List Char
  rows : List (κ × Rat)
deriving DecidableEq

/-- The `agg_func` dict literal (`src/data_processing.py:255`). -/
def agg_func : List (List Char × List Char) :=
  [("sum".toList, "sum".toList), ("mean".toList, "mean".toList),
   ("count".toList, "count".toList)]

/-- The selected pandas aggregation applied to one group's metric column. -/
def applyAgg (aggregation : List Char) (xs : List Rat) : Rat :=
  if aggregation = "mean".toList then meanQ xs
  else if aggregation = "count".toList then (xs.length : Rat)
  else xs.sum

/-- `get_top_products(df, product_col, metric_col, top_n, aggregation)`
(`src/data_processing.py:229-266`): the dict lookup `agg_func[aggregation]`
runs first and raises `KeyError` for an unknown key; otherwise group by
product (sorted keys), aggregate, sort descending by value, truncate to
`top_n`, and rename the value column to `{metric_col}_{aggregation}`. -/
def get_top_products {κ : Type} [LinearOrder κ] [DecidableEq κ] (df : List (ProdRow κ))
    (product_col metric_col : List Char) (top_n : Nat) (aggregation : List Char) :
    Except (List Char) (TopProducts κ) :=
  match agg_func.find? (fun p => p.1 = aggregation) with
  | none => .error ("KeyError: ".toList ++ aggregation)
  | some _ =>
    let keys := List.insertionSort (· ≤ ·) (df.map (·.product)).dedup
    let agg := keys.map (fun k =>
      (k, applyAgg aggregation ((df.filter (fun r => r.product = k)).map (·.metric))))
    let sorted := List.insertionSort (fun a b => b.2 ≤ a.2) agg
    .ok { cols := (product_col, metric_col ++ '_' :: aggregation),
          rows := sorted.take top_n }

/-- **C7** (`functional_correctness`): for an aggregation in
`{sum, mean, count}`, `get_top_products` returns a table of at most `top_n`
rows, sorted descending in the aggregated metric, whose aggregated column
is named exactly `{metric_col}_{aggregation}`. -/
theorem get_top_products_spec {κ : Type} [LinearOrder κ] [DecidableEq κ]
    (df : List (ProdRow κ)) (product_col metric_col : List Char) (top_n : Nat)
    (aggregation : List Char)
    (hagg : aggregation ∈ [("sum".toList : List Char), "mean".toList, "count".toList]) :
    ∃ t : TopProducts κ,
      get_top_products df product_col metric_col top_n aggregation = .ok t ∧
      t.rows.length ≤ top_n ∧
      t.cols.2 = metric_col ++ '_' :: aggregation ∧
      (t.rows.map (fun p => p.2)).Pairwise (fun a b => b ≤ a) := by
  have hfind : ∃ v, agg_func.find? (fun p => p.1 = aggregation) = some v := by
    simp only [List.mem_cons, List.not_mem_nil, or_false] at hagg
    rcases hagg with h | h | h <;> subst h <;> exact ⟨_, rfl⟩
  obtain ⟨v, hv⟩ := hfind
  rw [get_top_products, hv]
  refine ⟨_, rfl, ?_, rfl, ?_⟩
  · exact (List.length_take _ _).le.trans (min_le_left _ _)
  · haveI htot : IsTotal (κ × Rat) (fun a b => b.2 ≤ a.2) := ⟨fun a b => le_total b.2 a.2⟩
    haveI htr : IsTrans (κ × Rat) (fun a b => b.2 ≤ a.2) :=
      ⟨fun a b c hab hbc => le_trans hbc hab⟩
    have hsorted := List.sorted_insertionSort (fun (a b : κ × Rat) => b.2 ≤ a.2)
      ((List.insertionSort (· ≤ ·) (df.map (·.product)).dedup).map (fun k =>
        (k, applyAgg aggregation ((df.filter (fun r => r.product = k)).map (·.metric)))))
    have htake := List.Pairwise.sublist (List.take_sublist top_n _) hsorted
    exact List.Pairwise.map (fun (p : κ × Rat) => p.2) (fun a b h => h) htake

/-- Witness for C7: two products, `sum` aggregation, `top_n = 1`. -/
theorem get_top_products_spec_witness :
    ∃ t : TopProducts Nat,
      get_top_products [⟨1, 5⟩, ⟨2, 9⟩] "product".toList "qty".toList 1 "sum".toList =
        .ok t ∧
      t.rows.length ≤ 1 ∧
      t.cols.2 = "qty".toList ++ '_' :: "sum".toList ∧
      (t.rows.map (fun p => p.2)).Pairwise (fun a b => b ≤ a) :=
  get_top_products_spec [⟨1, 5⟩, ⟨2, 9⟩] "product".toList "qty".toList 1 "sum".toList
    (by decide)

/-- **C10** (`error_handling`): an unknown aggregation name makes
`get_top_products` fail with a `KeyError` from the `agg_func` dict lookup,
uniformly in the data — the same error for every input frame, so no
grouping or aggregation is ever consulted and no default is applied. -/
theorem get_top_products_bad_aggregation {κ : Type} [LinearOrder κ] [DecidableEq κ]
    (df : List (ProdRow κ)) (product_col metric_col : List Char) (top_n : Nat)
    (aggregation : List Char)
    (hagg : aggregation ∉ [("sum".toList : List Char), "mean".toList, "count".toList]) :
    get_top_products df product_col metric_col top_n aggregation =
      .error ("KeyError: ".toList ++ aggregation) := by
  have hfind : agg_func.find? (fun p => p.1 = aggregation) = none := by
    rw [List.find?_eq_none]
    intro p hp hpk
    have hp1 : p.1 = aggregation := by simpa using hpk
    apply hagg
    rw [← hp1]
    simp only [agg_func, List.mem_cons, List.not_mem_nil, or_false] at hp
    rcases hp with h | h | h <;> subst h <;> simp
  rw [get_top_products, hfind]

/-- Witness for C10: the unknown aggregation `'median'` yields the
`KeyError` on a nonempty frame. -/
theorem get_top_products_bad_aggregation_witness :
    get_top_products [(⟨1, 5⟩ : ProdRow Nat)] "product".toList "qty".toList 10
      "median".toList = .error ("KeyError: ".toList ++ "median".toList) :=
  get_top_products_bad_aggregation [⟨1, 5⟩] "product".toList "qty".toList 10
    "median".toList (by decide)

/-! ## `calculate_rfm_segments` and `pd.qcut` -/

/-- Numpy linear-interpolation quantile of a sorted nonempty list at
`q ∈ [0, 1]`: index `h = q * (n - 1)` split into integer part and fraction
(`h ≥ 0` here, so the floor is `num.toNat / den`). -/
def pyQuantile (sortedXs : List Rat) (q : Rat) : Rat :=
  let n := sortedXs.length
  let h : Rat := q * mkRat (Int.ofNat (n - 1)) 1
  let i : Nat := h.num.toNat / h.den
  let lo := sortedXs.getD i 0
  let hi := sortedXs.getD (i + 1) lo
  lo + (h - mkRat (Int.ofNat i) 1) * (hi - lo)

/-- The `q + 1` candidate bin edges of `pd.qcut(x, q)`: the quantiles of
`x` at `0, 1/q, …, 1`. -/
def qcutEdges (xs : List Rat) (q : Nat) : List Rat :=
  (List.range (q + 1)).map (fun i =>
    pyQuantile (List.insertionSort (· ≤ ·) xs) (mkRat (Int.ofNat i) q))

/-- `np.unique` on an already sorted list: drop adjacent duplicates
(`duplicates='drop'`). -/
def uniqAdj : List Rat → List Rat
  | [] => []
  | [a] => [a]
  | a :: b :: t => if a = b then uniqAdj (b :: t) else a :: uniqAdj (b :: t)

/-- The bin of value `v` for strictly increasing edges: right-closed
intervals with the lowest edge included in the first bin, i.e. the number
of non-initial edges strictly below `v`. -/
def binIdx (edges : List Rat) (v : Rat) : Nat :=
  (edges.drop 1).countP (fun e => e < v)

deriving instance DecidableEq for Except

/-- `pd.qcut(x, q, labels=labels, duplicates='drop')`: compute the edges,
drop duplicate edges, then — in pandas' `_bins_to_cuts` — check the
explicit label list against the *surviving* bins and raise `ValueError`
when the lengths no longer agree; otherwise label each value by its bin. -/
def qcut (xs : List Rat) (q : Nat) (labels : List Int) : Except (List Char) (List Int) :=
  if xs = [] then .error "Cannot qcut empty array".toList
  else
    let edges := uniqAdj (qcutEdges xs q)
    if labels.length ≠ edges.length - 1 then
      .error "Bin labels must be one fewer than the number of bin edges".toList
    else .ok (xs.map (fun v => labels.getD (binIdx edges v) 0))

/-- `range(n_segments, 0, -1)`: the descending recency labels. -/
def rLabels (n : Nat) : List Int := (List.range n).map (fun i => Int.ofNat (n - i))

/-- `range(1, n_segments + 1)`: the ascending frequency/monetary labels. -/
def fmLabels (n : Nat) : List Int := (List.range n).map (fun i => Int.ofNat (i + 1))

/-- An input row of `calculate_rfm_segments`. -/
structure RFMIn where
  recency_days : Rat
  frequency : Rat
  monetary : Rat
deriving DecidableEq

/-- An output row: the input plus the three scores and the concatenated
composite code. -/
structure RFMOut where
  recency_days : Rat
  frequency : Rat
  monetary : Rat
  R_score : Int
  F_score : Int
  M_score : Int
  RFM_score : List Char
deriving DecidableEq

/-- `str(label)` for one score (`astype(str)` on the categorical). -/
def intStr (i : Int) : List Char := (toString i).toList

/-- `calculate_rfm_segments(df, …, n_segments)`
(`src/data_processing.py:190-226`): three `pd.qcut` calls — recency with
descending labels, frequency and monetary with ascending labels — then the
string concatenation of the three scores.  A `ValueError` raised by any
`qcut` aborts the call. -/
def calculate_rfm_segments (df : List RFMIn) (n_segments : Nat) :
    Except (List Char) (List RFMOut) :=
  match qcut (df.map (·.recency_days)) n_segments (rLabels n_segments) with
  | .error e => .error e
  | .ok rs =>
    match qcut (df.map (·.frequency)) n_segments (fmLabels n_segments) with
    | .error e => .error e
    | .ok fs =>
      match qcut (df.map (·.monetary)) n_segments (fmLabels n_segments) with
      | .error e => .error e
      | .ok ms =>
        .ok ((df.zip (rs.zip (fs.zip ms))).map (fun p =>
          { recency_days := p.1.recency_days, frequency := p.1.frequency,
            monetary := p.1.monetary,
            R_score := p.2.1, F_score := p.2.2.1, M_score := p.2.2.2,
            RFM_score := intStr p.2.1 ++ intStr p.2.2.1 ++ intStr p.2.2.2 }))

/-- The degenerate frame of C1: distinct recencies and monetaries, but a
frequency column `[1, 1, 1, 2]` with too few distinct values for 4
quantile bins. -/
def c1df : List RFMIn :=
  [⟨10, 1, 10⟩, ⟨20, 1, 20⟩, ⟨30, 1, 30⟩, ⟨40, 2, 40⟩]

/-- **C1** (`error_handling`), refuted on the code: on `c1df` with
`n_segments = 4` the frequency edges `[1, 1, 1, 1.25, 2]` collapse to the
3 distinct edges `[1, 1.25, 2]` (2 surviving bins), and because the code
passes the fixed-length label list `range(1, 5)` to `pd.qcut`, pandas
raises `ValueError: Bin labels must be one fewer than the number of bin
edges` instead of returning normally with fewer effective buckets.  The
recency column, having 4 distinct values, binned fine just before
(scores `[4, 3, 2, 1]`, descending with recency). -/
theorem calculate_rfm_segments_raises_on_ties :
    (uniqAdj (qcutEdges (c1df.map (·.frequency)) 4)).length = 3 ∧
    qcut (c1df.map (·.recency_days)) 4 (rLabels 4) = .ok [4, 3, 2, 1] ∧
    calculate_rfm_segments c1df 4 =
      .error "Bin labels must be one fewer than the number of bin edges".toList := by
  refine ⟨by with_unfolding_all decide, by with_unfolding_all decide,
    by with_unfolding_all decide⟩

/-! ## Mutation model

`standardize_column_names`, `create_churn_label` and
`calculate_rfm_segments` all start with `df = df.copy()` and then assign
columns only on the copy.  To state that the *caller's* frame is untouched
we model the Python object store explicitly: a heap is a list of frames, a
frame reference is an index, `copy` appends a fresh cell, and each pandas
column assignment is an in-place `List.set` on one cell.  Each `_st`
function is the statement-by-statement translation of the Python body over
this heap. -/

instance {α : Type} : Inhabited (DF α) := ⟨⟨[], []⟩⟩

/-- A churn-labeling frame cell: the input rows plus the two columns the
function may have assigned so far. -/
structure ChurnFrame (α : Type) where
  rows : List (CustRow α)
  recency_days : Option (List Int)
  churn_label : Option (List Int)
deriving DecidableEq

instance {α : Type} : Inhabited (ChurnFrame α) := ⟨⟨[], none, none⟩⟩

/-- An RFM frame cell: the input rows plus the four columns the function
may have assigned so far. -/
structure RFMFrame where
  rows : List RFMIn
  R_score : Option (List Int)
  F_score : Option (List Int)
  M_score : Option (List Int)
  RFM_score : Option (List (List Char))
deriving DecidableEq

instance : Inhabited RFMFrame := ⟨⟨[], none, none, none, none⟩⟩

/-- `standardize_column_names` on the heap: copy, then one column-names
assignment on the copy; returns the copy's reference. -/
def standardize_column_names_st {α : Type} (h : List (DF α)) (r : Nat) :
    List (DF α) × Nat :=
  let t := h.getD r default
  let h1 := h ++ [t]
  let r1 := h.length
  (h1.set r1 { t with cols := t.cols.map standardizeName }, r1)

/-- `create_churn_label` on the heap: copy, read the observation date from
the copy, assign `recency_days`, then assign `churn_label`. -/
def create_churn_label_st {α : Type} (h : List (ChurnFrame α)) (r : Nat)
    (observation_date : Option Int) (churn_days : Int) : List (ChurnFrame α) × Nat :=
  let t := h.getD r default
  let h1 := h ++ [t]
  let r1 := h.length
  let o := observationOf t.rows observation_date
  let rec_col := t.rows.map (fun s => o - s.last_purchase)
  let h2 := h1.set r1 { (h1.getD r1 default) with recency_days := some rec_col }
  let lab := rec_col.map (fun d => if churn_days ≤ d then (1 : Int) else 0)
  let h3 := h2.set r1 { (h2.getD r1 default) with churn_label := some lab }
  (h3, r1)

/-- `calculate_rfm_segments` on the heap: copy, then the three `qcut`
column assignments and the composite column, aborting (returning no
reference, as a raised `ValueError`) wherever `qcut` raises; every
assignment before the raise has already landed on the copy, never on the
caller's frame. -/
def calculate_rfm_segments_st (h : List RFMFrame) (r : Nat) (n : Nat) :
    List RFMFrame × Option Nat :=
  let t := h.getD r default
  let h1 := h ++ [t]
  let r1 := h.length
  match qcut (t.rows.map (·.recency_days)) n (rLabels n) with
  | .error _ => (h1, none)
  | .ok rs =>
    let h2 := h1.set r1 { (h1.getD r1 default) with R_score := some rs }
    match qcut (t.rows.map (·.frequency)) n (fmLabels n) with
    | .error _ => (h2, none)
    | .ok fs =>
      let h3 := h2.set r1 { (h2.getD r1 default) with F_score := some fs }
      match qcut (t.rows.map (·.monetary)) n (fmLabels n) with
      | .error _ => (h3, none)
      | .ok ms =>
        let h4 := h3.set r1 { (h3.getD r1 default) with M_score := some ms }
        let h5 := h4.set r1 { (h4.getD r1 default) with
          RFM_score := some ((rs.zip (fs.zip ms)).map (fun p =>
            intStr p.1 ++ intStr p.2.1 ++ intStr p.2.2)) }
        (h5, some r1)

theorem getD_set_ne {τ : Type} (l : List τ) (i j : Nat) (v d : τ) (hij : i ≠ j) :
    (l.set i v).getD j d = l.getD j d := by
  rw [List.getD_eq_getElem?_getD, List.getElem?_set_ne hij, ← List.getD_eq_getElem?_getD]

theorem getD_append_lt {τ : Type} (l ex : List τ) (d : τ) (r : Nat) (hr : r < l.length) :
    (l ++ ex).getD r d = l.getD r d :=
  List.getD_append l ex d r hr

/-- **C9** (`frame_effect`): over the explicit object store, each of
`standardize_column_names`, `create_churn_label` and
`calculate_rfm_segments` leaves the caller's frame cell exactly as it was
and hands back a freshly allocated cell (the `df.copy()`), never the
caller's reference — for `calculate_rfm_segments` this holds on every
path, including the ones where `qcut` raises after some columns were
already assigned on the copy. -/
theorem pipeline_functions_do_not_mutate_input :
    (∀ (α : Type) (h : List (DF α)) (r : Nat), r < h.length →
      (standardize_column_names_st h r).1.getD r default = h.getD r default ∧
      (standardize_column_names_st h r).2 = h.length) ∧
    (∀ (α : Type) (h : List (ChurnFrame α)) (r : Nat) (obs : Option Int) (cd : Int),
      r < h.length →
      (create_churn_label_st h r obs cd).1.getD r default = h.getD r default ∧
      (create_churn_label_st h r obs cd).2 = h.length) ∧
    (∀ (h : List RFMFrame) (r n : Nat), r < h.length →
      (calculate_rfm_segments_st h r n).1.getD r default = h.getD r default ∧
      ∀ ref, (calculate_rfm_segments_st h r n).2 = some ref → ref = h.length) := by
  refine ⟨?_, ?_, ?_⟩
  · intro α h r hr
    constructor
    · show ((h ++ [h.getD r default]).set h.length _).getD r default = h.getD r default
      rw [getD_set_ne _ _ _ _ _ (by omega), getD_append_lt _ _ _ _ hr]
    · rfl
  · intro α h r obs cd hr
    constructor
    · show (((h ++ [h.getD r default]).set h.length _).set h.length _).getD r default =
        h.getD r default
      rw [getD_set_ne _ _ _ _ _ (by omega), getD_set_ne _ _ _ _ _ (by omega),
        getD_append_lt _ _ _ _ hr]
    · rfl
  · intro h r n hr
    unfold calculate_rfm_segments_st
    dsimp only
    split
    · refine ⟨?_, fun ref href => by cases href⟩
      rw [getD_append_lt _ _ _ _ hr]
    · split
      · refine ⟨?_, fun ref href => by cases href⟩
        rw [getD_set_ne _ _ _ _ _ (by omega), getD_append_lt _ _ _ _ hr]
      · split
        · refine ⟨?_, fun ref href => by cases href⟩
          rw [getD_set_ne _ _ _ _ _ (by omega), getD_set_ne _ _ _ _ _ (by omega),
            getD_append_lt _ _ _ _ hr]
        · refine ⟨?_, fun ref href => (Option.some.inj href).symm⟩
          rw [getD_set_ne _ _ _ _ _ (by omega), getD_set_ne _ _ _ _ _ (by omega),
            getD_set_ne _ _ _ _ _ (by omega), getD_set_ne _ _ _ _ _ (by omega),
            getD_append_lt _ _ _ _ hr]

/-- Witness for C9: a one-cell heap for each function; for the RFM one the
frame is the degenerate `c1df`, so the raising path is exercised too. -/
theorem pipeline_functions_do_not_mutate_input_witness :
    ((standardize_column_names_st [(⟨["A".toList], []⟩ : DF Nat)] 0).1.getD 0 default =
        ([(⟨["A".toList], []⟩ : DF Nat)]).getD 0 default ∧
      (standardize_column_names_st [(⟨["A".toList], []⟩ : DF Nat)] 0).2 = 1) ∧
    ((create_churn_label_st [(⟨[⟨5, ()⟩], none, none⟩ : ChurnFrame Unit)] 0 none 180).1.getD
        0 default = ([(⟨[⟨5, ()⟩], none, none⟩ : ChurnFrame Unit)]).getD 0 default ∧
      (create_churn_label_st [(⟨[⟨5, ()⟩], none, none⟩ : ChurnFrame Unit)] 0 none 180).2 = 1) ∧
    ((calculate_rfm_segments_st [⟨c1df, none, none, none, none⟩] 0 4).1.getD 0 default =
        ([(⟨c1df, none, none, none, none⟩ : RFMFrame)]).getD 0 default ∧
      ∀ ref, (calculate_rfm_segments_st [⟨c1df, none, none, none, none⟩] 0 4).2 = some ref →
        ref = 1) :=
  ⟨pipeline_functions_do_not_mutate_input.1 Nat [⟨["A".toList], []⟩] 0 (by decide),
   pipeline_functions_do_not_mutate_input.2.1 Unit [⟨[⟨5, ()⟩], none, none⟩] 0 none 180
     (by decide),
   pipeline_functions_do_not_mutate_input.2.2 [⟨c1df, none, none, none, none⟩] 0 4 (by decide)⟩
